import Mathlib

/-!
Verification of the starfield animation engine in `script.js`.

The engine keeps a pool of star entities and advances them each frame:
positions are drifted diagonally, a twinkle phase accumulates, and stars
wrap around an expanded bounding box.  Numeric values are modelled as
rationals (the code's arithmetic on positions, speeds and timestamps is
plain field arithmetic); the transcendental `Math.sin` used for the
derived alpha is modelled over the reals with `Real.sin`.
-/

namespace Starfield

/-- Model of a star entity, mirroring the object literal pushed into
`stars` in `script.js` (fields `x, y, r, spd, hue, tw, t`). -/
structure Star where
  x : ℚ
  y : ℚ
  r : ℚ
  spd : ℚ
  hue : String
  tw : ℚ
  t : ℚ
  deriving Repr, DecidableEq

/-- Drift update from `script.js` lines 65-67:
`s.x -= s.spd * dt * 0.6; s.y += s.spd * dt * 0.4; s.t += dt * 4`. -/
def driftStar (dt : ℚ) (s : Star) : Star :=
  { s with
    x := s.x - s.spd * dt * 0.6
    y := s.y + s.spd * dt * 0.4
    t := s.t + dt * 4 }

/-- Wrap update from `script.js` lines 69-70:
`if (s.x < -10) s.x = vw + 10; if (s.y > vh + 10) s.y = -10`. -/
def wrapStar (vw vh : ℚ) (s : Star) : Star :=
  { s with
    x := if s.x < -10 then vw + 10 else s.x
    y := if s.y > vh + 10 then -10 else s.y }

/-- One simulation step for a single star: the drift update followed by
the wrap check, exactly as the body of the `for (const s of stars)` loop
in `draw` performs them. -/
def stepStar (vw vh dt : ℚ) (s : Star) : Star :=
  wrapStar vw vh (driftStar dt s)

/-- One simulation step over the whole pool: the loop visits every star
and applies the same update. -/
def stepStars (vw vh dt : ℚ) (stars : List Star) : List Star :=
  stars.map (stepStar vw vh dt)

/-- Frame delta computation from `script.js` line 52:
`const dt = Math.min(0.04, (now - last) / 1000)` (timestamps are in
milliseconds, `dt` in seconds). -/
def frameDt (now last : ℚ) : ℚ :=
  min 0.04 ((now - last) / 1000)

/-- Device pixel ratio clamp from `script.js` line 8:
`Math.max(1, Math.min(2, window.devicePixelRatio || 1))`. -/
def clampDpr (raw : ℚ) : ℚ :=
  max 1 (min 2 raw)

/-- Surface state owned by the surface manager: logical (CSS) dimensions
`vw, vh`, device backing-store dimensions `cw, ch`, and the scale factor
installed by `ctx.setTransform(1,0,0,1,0,0); ctx.scale(dpr, dpr)`. -/
structure SurfaceState where
  vw : ℚ
  vh : ℚ
  cw : ℤ
  ch : ℤ
  scale : ℚ
  deriving Repr, DecidableEq

/-- Surface (re)configuration from `script.js` lines 11-22: the logical
dimensions are stored, the backing store is set to
`Math.floor(logical * dpr)` in both axes, and the transform is reset to a
scale by `dpr`.  `d` is the already-clamped device pixel ratio. -/
def resizeSurface (w h d : ℚ) : SurfaceState :=
  { vw := w, vh := h, cw := ⌊w * d⌋, ch := ⌊h * d⌋, scale := d }

/-- Modelled from the spec: JavaScript `Math.round`, the rounding the
spec's `configure` contract prescribes for the backing store
(`round(logical*scale)`); rounds half-way cases up. -/
def jsRound (x : ℚ) : ℤ :=
  ⌊x + 1 / 2⌋

/-- Engine state: the surface, the star pool, the frame clock's
`last` timestamp and the startup-clamped device pixel ratio. -/
structure Engine where
  surface : SurfaceState
  stars : List Star
  last : ℚ
  dpr : ℚ
  deriving Repr, DecidableEq

/-- Resize handler at the engine level: recomputes the surface from the
new viewport dimensions and the stored clamped pixel ratio; the star
pool and the frame clock are untouched (`resize` in `script.js` touches
only `vw, vh, cw, ch`, the canvas and the transform). -/
def resizeEngine (e : Engine) (w h : ℚ) : Engine :=
  { e with surface := resizeSurface w h e.dpr }

/-- Frame clock tick from `script.js` lines 52-53: produce the clamped
delta and store the new timestamp. -/
def tickClock (e : Engine) (now : ℚ) : ℚ × Engine :=
  (frameDt now e.last, { e with last := now })

/-- Raw twinkle alpha from `script.js` line 68:
`let alpha = 0.7 + Math.sin(s.t) * 0.3`. -/
noncomputable def rawAlpha (phase : ℝ) : ℝ :=
  0.7 + Real.sin phase * 0.3

/-- Rendered alpha from `script.js` line 74: the raw alpha remapped by
`0.35 + alpha * 0.35` before being written into the tint string. -/
noncomputable def renderAlpha (phase : ℝ) : ℝ :=
  0.35 + rawAlpha phase * 0.35

/-- Layer star counts from `script.js` lines 30-32. -/
def layerCounts : List ℕ := [80, 60, 40]

/-- Total number of stars allocated at startup: each layer contributes
exactly `count` stars to the pool. -/
def totalStars : ℕ := layerCounts.sum

/-- Expanded bounding box of the wrap invariant. -/
def inBox (vw vh : ℚ) (s : Star) : Prop :=
  -10 ≤ s.x ∧ s.x ≤ vw + 10 ∧ -10 ≤ s.y ∧ s.y ≤ vh + 10

instance (vw vh : ℚ) (s : Star) : Decidable (inBox vw vh s) := by
  unfold inBox; infer_instance

/-- Concrete star used to instantiate theorems on sample inputs. -/
def sampleStar : Star :=
  { x := 50, y := 50, r := 1.2, spd := 12, hue := "rgba(154,223,255,0.55)",
    tw := 0.8, t := 0 }

/-- Concrete star sitting just past the left wrap boundary. -/
def wrapTestStarX : Star :=
  { sampleStar with x := -10.0001 }

/-- Concrete star sitting just past the bottom wrap boundary on a
100-pixel-tall surface. -/
def wrapTestStarY : Star :=
  { sampleStar with y := 100 + 10.0001 }

/-- Concrete engine used to instantiate theorems on sample inputs. -/
def sampleEngine : Engine :=
  { surface := resizeSurface 800 600 1, stars := [sampleStar],
    last := 1000, dpr := 1 }

/-- C4: in every simulation step the update applied to each star before
the wrap check is exactly `x := x - spd*dt*0.6`, `y := y + spd*dt*0.4`,
`phase := phase + dt*4`, and the same update function is mapped over the
whole pool, so the drift direction is identical for all layers. -/
theorem c4_drift_update (vw vh dt : ℚ) (s : Star) (pool : List Star) :
    (driftStar dt s).x = s.x - s.spd * dt * 0.6 ∧
    (driftStar dt s).y = s.y + s.spd * dt * 0.4 ∧
    (driftStar dt s).t = s.t + dt * 4 ∧
    stepStar vw vh dt s = wrapStar vw vh (driftStar dt s) ∧
    stepStars vw vh dt pool = pool.map (stepStar vw vh dt) :=
  ⟨rfl, rfl, rfl, rfl, rfl⟩

/-- C5: for every phase, the rendered alpha
`0.35 + (0.7 + sin(phase)*0.3) * 0.35` lies within `[0.35, 0.70]`. -/
theorem c5_alpha_range (phase : ℝ) :
    0.35 ≤ renderAlpha phase ∧ renderAlpha phase ≤ 0.70 := by
  have h1 : -1 ≤ Real.sin phase := Real.neg_one_le_sin phase
  have h2 : Real.sin phase ≤ 1 := Real.sin_le_one phase
  unfold renderAlpha rawAlpha
  constructor <;> nlinarith

/-- C7: a resize leaves every star of the pool unchanged (hence every
stored position, radius and speed) and recomputes the device dimensions
as the floor of the logical dimensions times the clamped pixel scale; in
particular resizing from logical (800,600) to (1200,900) behaves so. -/
theorem c7_resize_preserves_stars (e : Engine) (w h : ℚ) :
    (resizeEngine e w h).stars = e.stars ∧
    ((resizeEngine e w h).stars.map Star.x = e.stars.map Star.x ∧
     (resizeEngine e w h).stars.map Star.y = e.stars.map Star.y ∧
     (resizeEngine e w h).stars.map Star.r = e.stars.map Star.r ∧
     (resizeEngine e w h).stars.map Star.spd = e.stars.map Star.spd) ∧
    (resizeEngine e w h).surface.cw = ⌊w * e.dpr⌋ ∧
    (resizeEngine e w h).surface.ch = ⌊h * e.dpr⌋ :=
  ⟨rfl, ⟨rfl, rfl, rfl, rfl⟩, rfl, rfl⟩

/-- C10: a simulation step changes only `x`, `y` and `t` (phase) of each
star — radius, speed, tint and twinkle amplitude are untouched — it
preserves the length of the pool, and the pool built from the three
layers holds 80+60+40 = 180 stars. -/
theorem c10_step_frame_effect (vw vh dt : ℚ) (s : Star) (pool : List Star) :
    (stepStar vw vh dt s).r = s.r ∧
    (stepStar vw vh dt s).spd = s.spd ∧
    (stepStar vw vh dt s).hue = s.hue ∧
    (stepStar vw vh dt s).tw = s.tw ∧
    (stepStars vw vh dt pool).length = pool.length ∧
    totalStars = 80 + 60 + 40 ∧ totalStars = 180 :=
  ⟨rfl, rfl, rfl, rfl, List.length_map pool _, by decide, by decide⟩

/-- C2 counterexample: the frame clock has no lower clamp at zero — with
a current timestamp of 0 and a stored timestamp of 1000 the produced
delta is `min 0.04 (-1) = -1 < 0`, refuting the claim that dt is never
negative when the supplied timestamp is less than the stored one. -/
theorem c2_counterexample : frameDt 0 1000 < 0 := by
  norm_num [frameDt]

/-- C2 (amended): each tick produces `dt = min(0.04, (now-last)/1000)`,
so dt never exceeds 0.04 and is nonnegative whenever the supplied
timestamp is at least the stored one (but may be negative otherwise),
and the stored timestamp is updated to the current one. -/
theorem c2_frame_clock (e : Engine) (now : ℚ) :
    (tickClock e now).1 = min 0.04 ((now - e.last) / 1000) ∧
    (tickClock e now).1 ≤ 0.04 ∧
    (e.last ≤ now → 0 ≤ (tickClock e now).1) ∧
    (tickClock e now).2.last = now := by
  refine ⟨rfl, min_le_left _ _, fun h => le_min (by norm_num) ?_, rfl⟩
  have : 0 ≤ now - e.last := sub_nonneg.mpr h
  positivity

/-- C2 witness: on the sample engine (stored timestamp 1000) a tick at
timestamp 2000 yields a nonnegative delta and stores 2000. -/
theorem c2_frame_clock_witness :
    (0 : ℚ) ≤ (tickClock sampleEngine 2000).1 ∧
    (tickClock sampleEngine 2000).2.last = 2000 :=
  ⟨(c2_frame_clock sampleEngine 2000).2.2.1 (by norm_num [sampleEngine]),
   (c2_frame_clock sampleEngine 2000).2.2.2⟩

/-- C6 counterexample: the surface configuration uses `Math.floor`, not
`round`: with logical width 3 and pixel scale 1.5 the backing store is
`floor(4.5) = 4` while `round(4.5) = 5`. -/
theorem c6_counterexample :
    (resizeSurface 3 3 (clampDpr (3 / 2))).cw ≠ jsRound (3 * clampDpr (3 / 2)) := by
  have hc : clampDpr (3 / 2) = 3 / 2 := by
    unfold clampDpr
    rw [min_eq_right (by norm_num : (3 : ℚ) / 2 ≤ 2),
        max_eq_right (by norm_num : (1 : ℚ) ≤ 3 / 2)]
  unfold resizeSurface jsRound
  rw [hc]
  have h1 : ⌊(3 : ℚ) * (3 / 2)⌋ = 4 := by
    rw [Int.floor_eq_iff]
    norm_num
  have h2 : ⌊(3 : ℚ) * (3 / 2) + 1 / 2⌋ = 5 := by
    rw [Int.floor_eq_iff]
    norm_num
  simp only [h1, h2]
  decide

/-- C6 (amended): surface configuration sets the backing store to
`floor(logical * pixelScale)` in both axes (not `round`), where the
pixel scale is the device pixel ratio clamped to `[1, 2]`, stores the
logical dimensions, and installs a transform scaling by the pixel scale
so drawing commands are issued in logical space. -/
theorem c6_surface_configure (w h d : ℚ) :
    1 ≤ clampDpr d ∧ clampDpr d ≤ 2 ∧
    (resizeSurface w h (clampDpr d)).cw = ⌊w * clampDpr d⌋ ∧
    (resizeSurface w h (clampDpr d)).ch = ⌊h * clampDpr d⌋ ∧
    (resizeSurface w h (clampDpr d)).scale = clampDpr d ∧
    (resizeSurface w h (clampDpr d)).vw = w ∧
    (resizeSurface w h (clampDpr d)).vh = h :=
  ⟨le_max_left _ _, max_le (by norm_num) (min_le_left _ _), rfl, rfl, rfl, rfl, rfl⟩

/-- Helper: a single simulation step preserves membership in the
expanded bounding box, for nonnegative surface dimensions, star speed
and delta. -/
theorem stepStar_preserves_inBox (vw vh dt : ℚ) (s : Star)
    (hvw : 0 ≤ vw) (hvh : 0 ≤ vh) (hspd : 0 ≤ s.spd) (hdt : 0 ≤ dt)
    (hs : inBox vw vh s) : inBox vw vh (stepStar vw vh dt s) := by
  obtain ⟨hx0, hx1, hy0, hy1⟩ := hs
  have hxd : 0 ≤ s.spd * dt * 0.6 :=
    mul_nonneg (mul_nonneg hspd hdt) (by norm_num)
  have hyd : 0 ≤ s.spd * dt * 0.4 :=
    mul_nonneg (mul_nonneg hspd hdt) (by norm_num)
  unfold stepStar wrapStar driftStar inBox
  dsimp only
  refine ⟨?_, ?_, ?_, ?_⟩
  · split_ifs with h
    · linarith
    · linarith [not_lt.mp h]
  · split_ifs with h
    · linarith
    · linarith
  · split_ifs with h
    · linarith
    · linarith
  · split_ifs with h
    · linarith
    · linarith [not_lt.mp h]

/-- Helper: folding any list of nonnegative deltas over the step
function keeps a star with nonnegative speed inside the expanded box. -/
theorem foldl_step_inBox (vw vh : ℚ) (hvw : 0 ≤ vw) (hvh : 0 ≤ vh) :
    ∀ (dts : List ℚ) (s : Star), 0 ≤ s.spd → (∀ d ∈ dts, 0 ≤ d) →
      inBox vw vh s →
      inBox vw vh (dts.foldl (fun st d => stepStar vw vh d st) s) := by
  intro dts
  induction dts with
  | nil => intro s _ _ hs; exact hs
  | cons d ds ih =>
    intro s hspd hd hs
    rw [List.foldl_cons]
    exact ih (stepStar vw vh d s) hspd
      (fun x hx => hd x (List.mem_cons_of_mem d hx))
      (stepStar_preserves_inBox vw vh d s hvw hvh hspd
        (hd d (List.mem_cons_self d ds)) hs)

/-- C1: a star with nonnegative speed that starts inside the surface's
logical bounds stays inside the expanded box
`[-10, vw+10] × [-10, vh+10]` after any number of simulation steps,
each using a delta in `[0, 0.04]`, on a fixed surface. -/
theorem c1_wrap_invariant (vw vh : ℚ) (s : Star) (dts : List ℚ)
    (hvw : 0 ≤ vw) (hvh : 0 ≤ vh) (hspd : 0 ≤ s.spd)
    (hdts : ∀ d ∈ dts, 0 ≤ d ∧ d ≤ 0.04)
    (hx0 : 0 ≤ s.x) (hx1 : s.x ≤ vw) (hy0 : 0 ≤ s.y) (hy1 : s.y ≤ vh) :
    inBox vw vh (dts.foldl (fun st d => stepStar vw vh d st) s) :=
  foldl_step_inBox vw vh hvw hvh dts s hspd (fun d hd => (hdts d hd).1)
    ⟨by linarith, by linarith, by linarith, by linarith⟩

/-- C1 witness: the sample star on a 100×100 surface stays in the
expanded box after two concrete steps. -/
theorem c1_wrap_invariant_witness :
    (0 : ℚ) ≤ 100 ∧ 0 ≤ sampleStar.spd ∧
    (∀ d ∈ [(1 : ℚ) / 25, 1 / 100], 0 ≤ d ∧ d ≤ 0.04) ∧
    0 ≤ sampleStar.x ∧ sampleStar.x ≤ 100 ∧
    0 ≤ sampleStar.y ∧ sampleStar.y ≤ 100 ∧
    inBox 100 100
      ([(1 : ℚ) / 25, 1 / 100].foldl (fun st d => stepStar 100 100 d st)
        sampleStar) := by
  have hdts : ∀ d ∈ [(1 : ℚ) / 25, 1 / 100], 0 ≤ d ∧ d ≤ 0.04 := by
    intro d hd
    fin_cases hd <;> norm_num
  exact ⟨by norm_num, by decide, hdts, by decide, by decide, by decide, by decide,
    c1_wrap_invariant 100 100 sampleStar [(1 : ℚ) / 25, 1 / 100]
      (by norm_num) (by norm_num) (by decide) hdts
      (by decide) (by decide) (by decide) (by decide)⟩

/-- C3: the step's repositioning is exactly the two wrap checks —
`x` becomes `vw + 10` precisely when the drifted `x` is below `-10`,
`y` becomes `-10` precisely when the drifted `y` exceeds `vh + 10`, and
otherwise the drifted coordinates are kept; in particular a star at
`x = -10.0001` with nonnegative drift wraps to exactly `vw + 10`, and a
star at `y = vh + 10.0001` wraps to exactly `-10`. -/
theorem c3_wrap_conditions (vw vh dt : ℚ) (s : Star) :
    ((stepStar vw vh dt s).x =
      if (driftStar dt s).x < -10 then vw + 10 else (driftStar dt s).x) ∧
    ((stepStar vw vh dt s).y =
      if (driftStar dt s).y > vh + 10 then -10 else (driftStar dt s).y) ∧
    (s.x = -10.0001 → 0 ≤ s.spd → 0 ≤ dt →
      (stepStar vw vh dt s).x = vw + 10) ∧
    (s.y = vh + 10.0001 → 0 ≤ s.spd → 0 ≤ dt →
      (stepStar vw vh dt s).y = -10) := by
  refine ⟨rfl, rfl, fun hx hspd hdt => ?_, fun hy hspd hdt => ?_⟩
  · have hd : 0 ≤ s.spd * dt * 0.6 :=
      mul_nonneg (mul_nonneg hspd hdt) (by norm_num)
    have hlt : (driftStar dt s).x < -10 := by
      show s.x - s.spd * dt * 0.6 < -10
      rw [hx]; linarith
    show (if (driftStar dt s).x < -10 then vw + 10 else (driftStar dt s).x)
        = vw + 10
    rw [if_pos hlt]
  · have hd : 0 ≤ s.spd * dt * 0.4 :=
      mul_nonneg (mul_nonneg hspd hdt) (by norm_num)
    have hgt : (driftStar dt s).y > vh + 10 := by
      show vh + 10 < s.y + s.spd * dt * 0.4
      rw [hy]; linarith
    show (if (driftStar dt s).y > vh + 10 then -10 else (driftStar dt s).y)
        = -10
    rw [if_pos hgt]

/-- C3 witness: on a 100×100 surface with delta 0.01, the star at
`x = -10.0001` steps to `x = 110` and the star at `y = 110.0001`
steps to `y = -10`. -/
theorem c3_wrap_conditions_witness :
    wrapTestStarX.x = -10.0001 ∧ 0 ≤ wrapTestStarX.spd ∧
    (0 : ℚ) ≤ 1 / 100 ∧
    (stepStar 100 100 (1 / 100) wrapTestStarX).x = 100 + 10 ∧
    wrapTestStarY.y = (100 : ℚ) + 10.0001 ∧
    (stepStar 100 100 (1 / 100) wrapTestStarY).y = -10 :=
  ⟨rfl, by decide, by norm_num,
   (c3_wrap_conditions 100 100 (1 / 100) wrapTestStarX).2.2.1 rfl
     (by decide) (by norm_num),
   rfl,
   (c3_wrap_conditions 100 100 (1 / 100) wrapTestStarY).2.2.2 rfl
     (by decide) (by norm_num)⟩

/-- Helper: iterating the step accumulates phase linearly. -/
theorem stepStar_iterate_phase (vw vh dt : ℚ) :
    ∀ (n : ℕ) (s : Star),
      ((stepStar vw vh dt)^[n] s).t = s.t + n * (dt * 4) := by
  intro n
  induction n with
  | zero => intro s; simp
  | succ k ih =>
    intro s
    rw [Function.iterate_succ_apply, ih]
    have h : (stepStar vw vh dt s).t = s.t + dt * 4 := rfl
    rw [h]
    push_cast
    ring

/-- C8: for every positive delta and every `N ≥ 1`, applying the step
`N` times with delta `dt` yields exactly the same phase as one step
with delta `N * dt`. -/
theorem c8_phase_linearity (vw vh dt : ℚ) (s : Star) (N : ℕ)
    (hdt : 0 < dt) (hN : 1 ≤ N) :
    ((stepStar vw vh dt)^[N] s).t =
      (stepStar vw vh ((N : ℚ) * dt) s).t := by
  rw [stepStar_iterate_phase]
  show s.t + N * (dt * 4) = s.t + (N : ℚ) * dt * 4
  ring

/-- C8 witness: two steps of delta 1 give the sample star the same
phase as one step of delta 2. -/
theorem c8_phase_linearity_witness :
    (0 : ℚ) < 1 ∧ 1 ≤ 2 ∧
    ((stepStar 100 100 1)^[2] sampleStar).t =
      (stepStar 100 100 (((2 : ℕ) : ℚ) * 1) sampleStar).t :=
  ⟨by norm_num, by norm_num,
   c8_phase_linearity 100 100 1 sampleStar 2 (by norm_num) (by norm_num)⟩

/-- C9: with delta 0 a simulation step is the identity on every star
whose position lies in the expanded bounding box (position and phase
are unchanged, and so is every other field). -/
theorem c9_zero_dt (vw vh : ℚ) (s : Star)
    (hx : -10 ≤ s.x) (hy : s.y ≤ vh + 10) :
    stepStar vw vh 0 s = s := by
  have h1 : driftStar 0 s = s := by
    unfold driftStar
    simp only [mul_zero, zero_mul, sub_zero, add_zero]
  rw [stepStar, h1]
  unfold wrapStar
  rw [if_neg (not_lt.mpr hx), if_neg (not_lt.mpr hy)]

/-- C9 witness: the sample star on a 100×100 surface is unchanged by a
zero-delta step. -/
theorem c9_zero_dt_witness :
    -10 ≤ sampleStar.x ∧ sampleStar.y ≤ (100 : ℚ) + 10 ∧
    stepStar 100 100 0 sampleStar = sampleStar :=
  ⟨by decide, by norm_num [sampleStar],
   c9_zero_dt 100 100 sampleStar (by decide) (by norm_num [sampleStar])⟩

end Starfield
